import Mathlib

/-!
Verification of the inspection core of `cbv/management/commands/populate_cbv.py`
(the class-based-view introspector). The Python functions are shallowly
embedded: reflection results (source files, source lines, argument specs,
object identity and equality) are passed in explicitly, dotted module paths
are lists of components, and Python exceptions are an `Except` layer.
-/

set_option autoImplicit false

namespace CCBV

/-- The Python exception kinds that the importer can meet: the
configuration error raised for an unknown lazily called function, the
no-source `TypeError` raised by `inspect.getsourcelines`, and the
`OSError` raised when a source file cannot be read. -/
inductive PyErr where
  | improperlyConfigured (msg : String)
  | typeError
  | osError
deriving DecidableEq

/-- A Python runtime value as the attribute handler sees it: either a
`str` with its contents, or any other object together with the text that
`str()` / an f-string produces for it. -/
inductive PyVal where
  | str (s : String)
  | other (rendered : String)
deriving DecidableEq

/-- Whether the value is a Python `str` (`isinstance(x, str)`). -/
def PyVal.isStr : PyVal → Bool
  | .str _ => true
  | .other _ => false

/-- The text a value contributes inside an f-string, after the importer
has wrapped strings in single quotes: `f"'{x}'"` for a `str`, the default
rendering otherwise. -/
def PyVal.quoted : PyVal → String
  | .str s => "\x27" ++ s ++ "\x27"
  | .other rendered => rendered

/-- `LazyAttribute.functions`: the table from eager function names to
their lazy spellings. -/
def lazyFunctions : List (String × String) :=
  [("gettext", "gettext_lazy"), ("reverse", "reverse_lazy"), ("ugettext", "ugettext_lazy")]

/-- The data `promise.__reduce__()[1]` exposes for a deferred-call proxy:
the wrapped function name, the positional arguments, and the keyword
arguments as the `for key, value in self.kwargs` loop destructures them. -/
structure Promise where
  funcName : String
  args : List PyVal
  kwargs : List (PyVal × PyVal)
deriving DecidableEq

/-- The state a constructed `LazyAttribute` object holds. -/
structure LazyAttribute where
  lazy_func : String
  args : List PyVal
  kwargs : List (PyVal × PyVal)
deriving DecidableEq

/-- `LazyAttribute.__init__`: look the wrapped function name up in the
table; an unknown name raises `ImproperlyConfigured`. -/
def LazyAttribute.init (promise : Promise) : Except PyErr LazyAttribute :=
  match lazyFunctions.lookup promise.funcName with
  | some lazy_func => .ok { lazy_func, args := promise.args, kwargs := promise.kwargs }
  | none => .error (.improperlyConfigured
      ("\x27" ++ promise.funcName ++ "\x27 not in known lazily called functions"))

/-- The argument pieces `LazyAttribute.__repr__` collects: quoted string
positional arguments (a non-string positional argument is appended as a
raw object, which makes the later `", ".join` raise `TypeError`), then
one `key: value` piece per keyword pair, key and value each quoted when
they are strings. -/
def LazyAttribute.argPieces (la : LazyAttribute) : List String :=
  la.args.map PyVal.quoted ++ la.kwargs.map fun kv => kv.1.quoted ++ ": " ++ kv.2.quoted

/-- `LazyAttribute.__repr__`: `f"{func}({arguments})"` where `arguments`
is the `", "`-join of the collected pieces; the join raises `TypeError`
when some positional argument was appended as a non-string object. -/
def LazyAttribute.repr (la : LazyAttribute) : Except PyErr String :=
  if la.args.any fun a => !a.isStr then .error .typeError
  else .ok (la.lazy_func ++ "(" ++ String.intercalate ", " la.argPieces ++ ")")

/-- `BANNED_ATTR_NAMES`: the twelve reserved dunder names. -/
def BANNED_ATTR_NAMES : List String :=
  ["__all__", "__builtins__", "__class__", "__dict__", "__doc__", "__file__",
   "__module__", "__name__", "__package__", "__path__", "__spec__", "__weakref__"]

/-- Python membership `x in xs` over objects: objects are identified by a
numeric id, `eq` is the (possibly overloaded) `==` relation, and the
containment test is `any(x is e or x == e)`. -/
def pyContains (eq : Nat → Nat → Bool) (x : Nat) (xs : List Nat) : Bool :=
  xs.any fun e => x == e || eq x e

/-- `ok_to_add_attribute(member, member_name, parent)`: reject when the
parent is a class and the member is contained (Python `in`) in
`object.__dict__.values()`, then reject banned names. `eq` is the Python
equality relation and `objectDictValues` the ids of the entries of the
namespace of `object`. -/
def ok_to_add_attribute (eq : Nat → Nat → Bool) (objectDictValues : List Nat)
    (parentIsClass : Bool) (memberId : Nat) (member_name : String) : Bool :=
  if parentIsClass && pyContains eq memberId objectDictValues then false
  else if BANNED_ATTR_NAMES.contains member_name then false
  else true

/-- `ok_to_add_method(member, parent)`: the source files must match, the
parent must be a class, and the member start line must satisfy
`parent_start_line <= start_line <= parent_start_line + len(parent_lines)`. -/
def ok_to_add_method (memberSourceFile parentSourceFile : String)
    (parentIsClass : Bool) (start_line parent_start_line parentLineCount : Nat) : Bool :=
  if memberSourceFile != parentSourceFile then false
  else if !parentIsClass then false
  else if start_line < parent_start_line
      || start_line > parent_start_line + parentLineCount then false
  else true

/-- `get_line_number(member)` over the outcome of
`inspect.getsourcelines(member)`: on success the start line, on
`TypeError` the sentinel `-1`, any other exception propagates. -/
def get_line_number (sourcelines : Except PyErr (List String × Nat)) : Except PyErr Int :=
  match sourcelines with
  | .ok (_, start_line) => .ok (start_line : Int)
  | .error .typeError => .ok (-1)
  | .error e => .error e

/-- `get_value(member)`: a string is wrapped in single quotes, anything
else is rendered with `str()`. For the attribute values the handler can
meet, the non-string case is either an ordinary object with a total
rendering, or a `LazyAttribute` whose `__repr__` may raise. -/
def get_value : PyVal → String
  | .str s => "\x27" ++ s ++ "\x27"
  | .other rendered => rendered

/-- The `KlassAttribute` record (both the candidate dataclass and the
persisted model carry these fields; the owning class is identified by
its canonical dotted path, unique within a run). -/
structure KlassAttribute where
  name : String
  value : String
  line_number : Int
  klass_path : String
deriving DecidableEq

/-- A member value reaching `_handle_class_attribute`: either a deferred
call proxy (`isinstance(member, Promise)`) or a plain value carrying its
object id, its rendering, and the outcome `inspect.getsourcelines` would
give for it. -/
inductive ClassMember where
  | promise (p : Promise)
  | plain (id : Nat) (v : PyVal) (sourcelines : Except PyErr (List String × Nat))

/-- The `inspect.getsourcelines` outcome for a member: a fresh
`LazyAttribute` instance is a plain object with no source, so the lookup
raises `TypeError`; a plain member carries its own outcome. -/
def ClassMember.sourcelines : ClassMember → Except PyErr (List String × Nat)
  | .promise _ => .error .typeError
  | .plain _ _ sl => sl

/-- `InspectCodeImporter._handle_class_attribute`: wrap a `Promise` into
a `LazyAttribute` (propagating the configuration error), filter through
`ok_to_add_attribute`, then build the `KlassAttribute` with the
stringified value and the line number. `lazyId` is the object id of the
freshly constructed `LazyAttribute` wrapper; the parent is a class here
(the dispatch in `_process_member` guarantees it). -/
def _handle_class_attribute (eq : Nat → Nat → Bool) (objectDictValues : List Nat)
    (lazyId : Nat) (member : ClassMember) (member_name : String)
    (parentPath : String) : Except PyErr (Option KlassAttribute) :=
  match member with
  | .promise p =>
      match LazyAttribute.init p with
      | .error e => .error e
      | .ok la =>
        if ok_to_add_attribute eq objectDictValues true lazyId member_name then
          match la.repr with
          | .error e => .error e
          | .ok value =>
            match get_line_number (.error .typeError) with
            | .error e => .error e
            | .ok line_number =>
              .ok (some { name := member_name, value, line_number, klass_path := parentPath })
        else
          .ok none
  | .plain id v sl =>
      if ok_to_add_attribute eq objectDictValues true id member_name then
        let value := get_value v
        match get_line_number sl with
        | .error e => .error e
        | .ok line_number =>
          .ok (some { name := member_name, value, line_number, klass_path := parentPath })
      else
        .ok none

/-- The attribute-handling part of the member walk over the lexically
ordered `(name, member)` pairs of one class: each member goes through
`_handle_class_attribute`; an exception aborts the whole generator, so
no record list is produced at all. -/
def process_class_attributes (eq : Nat → Nat → Bool) (objectDictValues : List Nat)
    (lazyId : Nat) (parentPath : String) :
    List (String × ClassMember) → Except PyErr (List KlassAttribute)
  | [] => .ok []
  | (member_name, member) :: rest =>
      match _handle_class_attribute eq objectDictValues lazyId member member_name parentPath with
      | .error e => .error e
      | .ok record =>
        match process_class_attributes eq objectDictValues lazyId parentPath rest with
        | .error e => .error e
        | .ok records =>
          .ok (match record with
               | some a => a :: records
               | none => records)

/-- The loop body of `_get_best_import_path_for_class`. A dotted module
path is its list of components, so `module_path.rpartition(".")[0]` is
`List.dropLast` and the walrus loop runs while the stripped path is
non-empty. `check prefixPath` models
`getattr(importlib.import_module(prefixPath), klass.__name__, None) == klass`.
Each iteration strips one component, so a fuel of the initial length
covers the whole walk. -/
def _get_best_import_path_go (check : List String → Bool) :
    Nat → List String → List String → List String
  | 0, best_path, _ => best_path
  | fuel + 1, best_path, module_path =>
    let next := module_path.dropLast
    if next.isEmpty then best_path
    else _get_best_import_path_go check fuel (if check next then next else best_path) next

/-- `InspectCodeImporter._get_best_import_path_for_class`:
`module_path = best_path = klass.__module__`, then walk upward, updating
`best_path` on every prefix that passes the check, and return the final
`best_path`. -/
def _get_best_import_path_for_class (check : List String → Bool)
    (module_path : List String) : List String :=
  _get_best_import_path_go check module_path.length module_path module_path

/-- Join dotted-path components back into the string form. -/
def dottedPath (components : List String) : String :=
  String.intercalate "." components

/-- Python `s.startswith(pre)`, character by character. -/
def pyStartsWith (s pre : String) : Bool :=
  pre.toList.isPrefixOf s.toList

/-- Split a character list at every dot, keeping empty components, as
Python `s.split(".")` does. -/
def splitOnDot : List Char → List (List Char)
  | [] => [[]]
  | c :: rest =>
    match splitOnDot rest with
    | h :: t => if c = '.' then [] :: h :: t else (c :: h) :: t
    | [] => if c = '.' then [[], []] else [[c]]

/-- The component list of a dotted module path. -/
def moduleComponents (s : String) : List String :=
  (splitOnDot s.toList).map String.mk

/-- The `Klass` record emitted by the walker (the importer dataclass). -/
structure Klass where
  name : String
  module : String
  docstring : String
  line_number : Int
  path : String
  bases : List String
  best_import_path : String
deriving DecidableEq

/-- `InspectCodeImporter._handle_class_on_module`: drop the class unless
its `__module__` starts with the name of the containing module and its
source file equals the source file of that module; otherwise emit the
`Klass` record (and recurse into the class members — recursion happens
exactly when the record is emitted). `sourcelines` is the
`inspect.getsourcelines` outcome for the class and `check` the
re-exposure check used for the best import path. -/
def _handle_class_on_module (check : List String → Bool)
    (member_name member_module docstring : String)
    (sourcelines : Except PyErr (List String × Nat)) (bases : List String)
    (memberSourceFile parentSourceFile parent_name : String) :
    Except PyErr (Option Klass) :=
  if !pyStartsWith member_module parent_name then .ok none
  else if memberSourceFile != parentSourceFile then .ok none
  else
    match get_line_number sourcelines with
    | .error e => .error e
    | .ok line_number =>
      .ok (some
        { name := member_name
          module := member_module
          docstring
          line_number
          path := member_module ++ "." ++ member_name
          bases
          best_import_path :=
            dottedPath (_get_best_import_path_for_class check (moduleComponents member_module)) })

/-- The `inspect.getfullargspec` result, restricted to the fields the
importer claims depend on: the positional argument names, the `*args`
slot and the `**kwargs` slot (defaults, keyword-only arguments and
annotations only add text of the same shape inside the parentheses). -/
structure FullArgSpec where
  args : List String
  varargs : Option String
  varkw : Option String
deriving DecidableEq

/-- The comma-separated pieces `inspect.formatargspec` renders between
the parentheses: the positional names, then `*name`, then `**name`. -/
def argspec_pieces (spec : FullArgSpec) : List String :=
  spec.args
    ++ (match spec.varargs with | some v => ["*" ++ v] | none => [])
    ++ (match spec.varkw with | some v => ["**" ++ v] | none => [])

/-- Model of `inspect.formatargspec(*inspect.getfullargspec(member))`:
the pieces joined with `", "` inside one pair of parentheses. -/
def formatargspec (spec : FullArgSpec) : String :=
  "(" ++ String.intercalate ", " (argspec_pieces spec) ++ ")"

/-- The Python string slice `s[1:-1]`: drop the first and the last
character. -/
def sliceOneToNegOne (s : String) : String :=
  String.mk ((s.toList.drop 1).dropLast)

/-- The number of leading whitespace characters,
`len(line) - len(line.lstrip())`. -/
def leadingWhitespace (line : String) : Nat :=
  (line.toList.takeWhile Char.isWhitespace).length

/-- `get_code(member)` over the reflection results for the member: dedent
every source line by the indentation of the first line, join the lines
into one string, format the argument spec, and return the triple
`(code, arguments, start_line)`. -/
def get_code (lines : List String) (start_line : Nat) (spec : FullArgSpec) :
    String × String × Nat :=
  let whitespace := leadingWhitespace (lines.headD "")
  let dedented := lines.map fun line => String.mk (line.toList.drop whitespace)
  let code := String.join dedented
  (code, formatargspec spec, start_line)

/-- The `Method` record emitted by the walker. -/
structure Method where
  name : String
  docstring : String
  code : String
  kwargs : String
  line_number : Nat
  klass_path : String
deriving DecidableEq

/-- `InspectCodeImporter._handle_function_or_method` after the
decoration chain has been unwrapped (all reflection inputs describe the
innermost callable): filter through `ok_to_add_method`, then emit the
`Method` whose `kwargs` field is `arguments[1:-1]`. -/
def _handle_function_or_method (member_name docstring : String)
    (memberSourceFile parentSourceFile : String) (parentIsClass : Bool)
    (lines : List String) (start_line : Nat) (spec : FullArgSpec)
    (parent_start_line parentLineCount : Nat) (parentPath : String) : Option Method :=
  if !ok_to_add_method memberSourceFile parentSourceFile parentIsClass
      start_line parent_start_line parentLineCount then none
  else
    let (code, arguments, sl) := get_code lines start_line spec
    some { name := member_name, docstring, code,
           kwargs := sliceOneToNegOne arguments, line_number := sl,
           klass_path := parentPath }

/-- The `kwargs` field as claim C3 words it (a second definition written
from the claim, for comparison with the code): the full argument-name
list with the first positional argument and the final catch-all removed. -/
def kwargs_per_claim (spec : FullArgSpec) : List String :=
  let names := spec.args
    ++ (match spec.varargs with | some v => [v] | none => [])
    ++ (match spec.varkw with | some v => [v] | none => [])
  (names.drop 1).dropLast

/-- The direct children of a class under the discovered `Inheritance`
edges, each edge written `(parent_path, child_path)`. -/
def childrenOf (edges : List (String × String)) (k : String) : List String :=
  edges.filterMap fun e => if e.1 == k then some e.2 else none

/-- One saturation step of the descendant closure: add every edge target
whose source is already in the set. -/
def descendantsStep (edges : List (String × String)) (s : List String) : List String :=
  s ++ edges.filterMap fun e =>
    if s.contains e.1 && !s.contains e.2 then some e.2 else none

/-- Iterate the saturation step. -/
def descendantsIter (edges : List (String × String)) : Nat → List String → List String
  | 0, s => s
  | n + 1, s => descendantsIter edges n (descendantsStep edges s)

/-- Modelled from the spec: `models.Klass.get_all_children` lives in
`cbv/models.py`, which is not under src/. Per the spec it is the set of
descendants of the class, the transitive closure over the discovered
`Inheritance` edges in the child direction. Starting from the direct
children, `edges.length` saturation steps reach every descendant. -/
def get_all_children (edges : List (String × String)) (k : String) : List String :=
  descendantsIter edges edges.length (childrenOf edges k)

/-- `create_attributes(attributes, klass_lookup)`: `attributes` maps each
`(name, value)` pair to the `(klass_path, line)` candidates that carried
it. For each group, collect the descendants of every candidate class, drop
every candidate whose class is among those descendants, and build one
`KlassAttribute` per surviving candidate. Classes are identified by their
canonical path (`klass_lookup` is injective within a run, so comparing
looked-up model objects is comparing paths). -/
def create_attributes (edges : List (String × String))
    (attributes : List ((String × String) × List (String × Int))) :
    List KlassAttribute :=
  attributes.flatMap fun group =>
    let name := group.1.1
    let value := group.1.2
    let klasses := group.2
    let descendants := klasses.flatMap fun k_and_l => get_all_children edges k_and_l.1
    let remaining_klasses := klasses.filter fun k_and_l => !descendants.contains k_and_l.1
    remaining_klasses.map fun k_and_l =>
      { name, value, line_number := k_and_l.2, klass_path := k_and_l.1 }

/-- A re-exposure check under which no module exposes the class under its
simple name: models a class that its own defining module no longer binds
(deleted or rebound under another name after definition). -/
def neverReexposed : List String → Bool := fun _ => false

/-- A Python equality relation under which the distinct objects with ids
1 and 2 compare equal (such as two equal strings), on top of identity. -/
def pyEqByValue : Nat → Nat → Bool :=
  fun a b => a == b || (a == 1 && b == 2) || (a == 2 && b == 1)

/-!  Helper lemmas about the best-import-path walk. -/

/-- Unfolding equation for one iteration of the walk. -/
theorem go_succ (check : List String → Bool) (fuel : Nat) (best mp : List String) :
    _get_best_import_path_go check (fuel + 1) best mp =
      if (mp.dropLast).isEmpty then best
      else _get_best_import_path_go check fuel
        (if check mp.dropLast then mp.dropLast else best) mp.dropLast := rfl

/-- Every run of the walk returns either the initial `best_path` or some
proper prefix of the walked path that passed the check. -/
theorem go_cases (check : List String → Bool) :
    ∀ (fuel : Nat) (best mp : List String),
      _get_best_import_path_go check fuel best mp = best ∨
        ∃ k, 0 < k ∧ k < mp.length ∧
          _get_best_import_path_go check fuel best mp = mp.take k ∧
          check (mp.take k) = true := by
  intro fuel
  induction fuel with
  | zero => intro best mp; left; rfl
  | succ fuel ih =>
    intro best mp
    rw [go_succ]
    by_cases hemp : (mp.dropLast).isEmpty
    · left; simp [hemp]
    · rw [if_neg (by simp [hemp])]
      have hmpne : mp.dropLast ≠ [] := by
        intro h
        rw [h] at hemp
        exact hemp rfl
      have hlen : 0 < mp.length - 1 := by
        have := List.length_pos.mpr hmpne
        simpa [List.length_dropLast] using this
      have htake : mp.dropLast = mp.take (mp.length - 1) := List.dropLast_eq_take mp
      rcases ih (if check mp.dropLast then mp.dropLast else best) mp.dropLast with
        h | ⟨k, hk0, hklt, heq, hchk⟩
      · by_cases hc : check mp.dropLast
        · right
          refine ⟨mp.length - 1, hlen, by omega, ?_, ?_⟩
          · rw [h, if_pos hc, htake]
          · rw [← htake]; exact hc
        · left
          rw [h, if_neg (by simp [hc])]
      · right
        have hklt' : k < mp.length - 1 := by
          simpa [List.length_dropLast] using hklt
        have htk : (mp.dropLast).take k = mp.take k := by
          rw [htake, List.take_take]
          congr 1
          omega
        exact ⟨k, hk0, by omega, by rw [heq, htk], by rw [← htk]; exact hchk⟩

/-- With enough fuel, the walk returns a path no longer than any proper
non-empty prefix of the walked path that passes the check: every such
prefix is examined, a failing prefix does not stop the walk. -/
theorem go_min (check : List String → Bool) :
    ∀ (fuel : Nat) (best mp : List String), mp.length ≤ fuel →
      ∀ j, 0 < j → j < mp.length → check (mp.take j) = true →
        (_get_best_import_path_go check fuel best mp).length ≤ j := by
  intro fuel
  induction fuel with
  | zero =>
    intro best mp hfuel j hj0 hjlt _
    omega
  | succ fuel ih =>
    intro best mp hfuel j hj0 hjlt hchk
    rw [go_succ]
    by_cases hemp : (mp.dropLast).isEmpty
    · exfalso
      have : mp.length - 1 = 0 := by
        have : mp.dropLast = [] := by simpa [List.isEmpty_iff] using hemp
        have := congrArg List.length this
        simpa [List.length_dropLast] using this
      omega
    · rw [if_neg (by simp [hemp])]
      have htake : mp.dropLast = mp.take (mp.length - 1) := List.dropLast_eq_take mp
      have hfuel' : (mp.dropLast).length ≤ fuel := by
        simp only [List.length_dropLast]; omega
      by_cases hj : j < mp.length - 1
      · have htk : (mp.dropLast).take j = mp.take j := by
          rw [htake, List.take_take]
          congr 1
          omega
        exact ih _ mp.dropLast hfuel' j hj0 (by simpa [List.length_dropLast] using hj)
          (by rw [htk]; exact hchk)
      · have hjeq : j = mp.length - 1 := by omega
        have hc : check mp.dropLast = true := by
          rw [htake, ← hjeq]; exact hchk
        rw [if_pos hc]
        rcases go_cases check fuel mp.dropLast mp.dropLast with h | ⟨k, hk0, hklt, heq, _⟩
        · rw [h]
          simp only [List.length_dropLast]
          omega
        · rw [heq]
          have : ((mp.dropLast).take k).length = k := by
            rw [List.length_take]
            have : k ≤ (mp.dropLast).length := le_of_lt hklt
            omega
          rw [this]
          have : k < (mp.dropLast).length := hklt
          simp only [List.length_dropLast] at this
          omega

/-- C2 (amended): the best-import-path search walks every proper dotted
prefix of the defining module path from longest to shortest, updating on
every prefix that passes the re-exposure check; it returns the shortest
passing proper prefix (the result is a prefix of the module path, and it
is either the full path or a non-empty passing proper prefix, and its
length is at most that of every passing non-empty proper prefix). A
failing prefix does NOT stop the walk: a shorter prefix can still be
accepted after a longer one fails. -/
theorem best_import_path_shortest (check : List String → Bool) (module_path : List String) :
    (_get_best_import_path_for_class check module_path =
       module_path.take (_get_best_import_path_for_class check module_path).length)
  ∧ (_get_best_import_path_for_class check module_path = module_path ∨
       (0 < (_get_best_import_path_for_class check module_path).length ∧
        (_get_best_import_path_for_class check module_path).length < module_path.length ∧
        check (_get_best_import_path_for_class check module_path) = true))
  ∧ (∀ j, 0 < j → j < module_path.length → check (module_path.take j) = true →
       (_get_best_import_path_for_class check module_path).length ≤ j) := by
  refine ⟨?_, ?_, ?_⟩
  · rcases go_cases check module_path.length module_path module_path with
      h | ⟨k, hk0, hklt, heq, _⟩
    · unfold _get_best_import_path_for_class
      rw [h, List.take_length]
    · unfold _get_best_import_path_for_class
      rw [heq, List.length_take]
      congr 1
      omega
  · rcases go_cases check module_path.length module_path module_path with
      h | ⟨k, hk0, hklt, heq, hchk⟩
    · left; exact h
    · right
      unfold _get_best_import_path_for_class
      rw [heq]
      refine ⟨?_, ?_, hchk⟩ <;> rw [List.length_take] <;> omega
  · intro j hj0 hjlt hchk
    exact go_min check module_path.length module_path module_path (le_refl _) j hj0 hjlt hchk

/-- C2 witness: with the check passing exactly at the one-component prefix
and a three-component module path, the result has length at most 1. -/
theorem best_import_path_shortest_witness :
    (_get_best_import_path_for_class (fun p => p == ["a"]) ["a", "b", "c"]).length ≤ 1 :=
  (best_import_path_shortest (fun p => p == ["a"]) ["a", "b", "c"]).2.2 1
    (by decide) (by decide) (by decide)

/-- C2 counterexample: the check fails at the two-component prefix
`["a", "b"]` yet the walk continues and accepts the strictly shorter
prefix `["a"]`, contradicting the claim that no prefix shorter than the
first failing one is ever accepted. -/
theorem best_import_path_no_early_stop_cex :
    _get_best_import_path_for_class (fun p => p == ["a"]) ["a", "b", "c"] = ["a"]
  ∧ ((["a", "b"] : List String) == ["a"]) = false
  ∧ (["a"] : List String).length < (["a", "b"] : List String).length := by decide

/-- C9 (amended): the best import path is always a prefix-or-equal of the
defining module path, and the round-trip re-exposure check holds for it
PROVIDED the full defining module path itself passes the check (which the
code never verifies: when every proper prefix fails, the full path is
returned unchecked, and the check itself is `==`, not `is`). -/
theorem best_import_path_round_trip (check : List String → Bool) (module_path : List String) :
    (_get_best_import_path_for_class check module_path =
       module_path.take (_get_best_import_path_for_class check module_path).length)
  ∧ (check module_path = true →
       check (_get_best_import_path_for_class check module_path) = true) := by
  constructor
  · rcases go_cases check module_path.length module_path module_path with
      h | ⟨k, _, hklt, heq, _⟩
    · unfold _get_best_import_path_for_class
      rw [h, List.take_length]
    · unfold _get_best_import_path_for_class
      rw [heq, List.length_take]
      congr 1
      omega
  · intro hfull
    rcases go_cases check module_path.length module_path module_path with
      h | ⟨k, _, _, heq, hchk⟩
    · unfold _get_best_import_path_for_class
      rw [h]
      exact hfull
    · unfold _get_best_import_path_for_class
      rw [heq]
      exact hchk

/-- C9 witness: with a check that always passes, the result for the path
`["a", "b"]` is a prefix of it and itself passes the check. -/
theorem best_import_path_round_trip_witness :
    (_get_best_import_path_for_class (fun _ => true) ["a", "b"] =
       (["a", "b"] : List String).take
         (_get_best_import_path_for_class (fun _ => true) ["a", "b"]).length)
  ∧ (fun (_ : List String) => true) (_get_best_import_path_for_class (fun _ => true) ["a", "b"]) = true :=
  ⟨(best_import_path_round_trip (fun _ => true) ["a", "b"]).1,
   (best_import_path_round_trip (fun _ => true) ["a", "b"]).2 rfl⟩

/-- C9 counterexample: for a class that no module re-exposes under its
simple name (`neverReexposed`), the code returns the full module path
without ever checking it, and the round-trip check fails on the returned
path. -/
theorem best_import_path_round_trip_cex :
    _get_best_import_path_for_class neverReexposed ["a", "b"] = ["a", "b"]
  ∧ neverReexposed (_get_best_import_path_for_class neverReexposed ["a", "b"]) = false := by
  decide

/-- C4 (amended): `ok_to_add_method` accepts a callable member iff the
source files match, the parent is a class, and the member start line lies
in the CLOSED range
`[parent_start_line, parent_start_line + parentLineCount]` (the code
rejects only lines strictly beyond the endpoint, so the line one past the
block endpoint is accepted; within the claimed half-open range the two
conditions agree, so a method defined in the source block of class A is
still never attributed to a subclass with a disjoint block). -/
theorem ok_to_add_method_iff (memberSourceFile parentSourceFile : String)
    (parentIsClass : Bool) (start_line parent_start_line parentLineCount : Nat) :
    ok_to_add_method memberSourceFile parentSourceFile parentIsClass
        start_line parent_start_line parentLineCount = true ↔
      memberSourceFile = parentSourceFile ∧ parentIsClass = true ∧
        parent_start_line ≤ start_line ∧
        start_line ≤ parent_start_line + parentLineCount := by
  unfold ok_to_add_method
  split
  · rename_i h
    rw [bne_iff_ne] at h
    simp only [Bool.false_eq_true, false_iff]
    rintro ⟨he, -, -, -⟩
    exact h he
  · rename_i h
    have h1 : memberSourceFile = parentSourceFile := by
      simpa [bne_iff_ne] using h
    split
    · rename_i hc
      have h2 : parentIsClass = false := by
        cases parentIsClass
        · rfl
        · simp at hc
      simp only [Bool.false_eq_true, false_iff]
      rintro ⟨-, hcls, -, -⟩
      rw [h2] at hcls
      exact Bool.false_ne_true hcls
    · rename_i hc
      have h2 : parentIsClass = true := by
        cases parentIsClass
        · simp at hc
        · rfl
      split
      · rename_i h3
        simp only [Bool.or_eq_true, decide_eq_true_eq] at h3
        simp only [Bool.false_eq_true, false_iff]
        rintro ⟨-, -, h4, h5⟩
        omega
      · rename_i h3
        simp only [Bool.or_eq_true, decide_eq_true_eq, not_or, not_lt] at h3
        simp only [true_iff]
        exact ⟨h1, h2, by omega, by omega⟩

/-- C4 witness: equal files, class parent, line 12 inside the block
starting at 10 with 5 lines: accepted. -/
theorem ok_to_add_method_iff_witness :
    ok_to_add_method "f.py" "f.py" true 12 10 5 = true :=
  (ok_to_add_method_iff "f.py" "f.py" true 12 10 5).mpr (by decide)

/-- C4 counterexample: with equal source files and a class parent whose
source block starts at line 10 and has 5 lines, a callable starting at
line 15 = 10 + 5 is accepted by `ok_to_add_method`, although 15 lies
outside the half-open range [10, 10 + 5) stated by the claim. -/
theorem ok_to_add_method_halfopen_cex :
    ok_to_add_method "f.py" "f.py" true 15 10 5 = true ∧ ¬(15 < 10 + 5) := by decide

/-- C5 (amended): a class met as a member of a module is emitted as a
Klass record (and recursed into) iff its own qualified module name starts
with the name of the CONTAINING module — not the root module; the two
coincide only when the container is the root — and its source file equals
the source file of the containing module (and the line lookup does not
propagate an exception); the emitted record has canonical path
`module.name`. -/
theorem handle_class_on_module_iff
    (check : List String → Bool) (member_name member_module docstring : String)
    (sourcelines : Except PyErr (List String × Nat)) (bases : List String)
    (memberSourceFile parentSourceFile parent_name : String) :
    ((∃ k, _handle_class_on_module check member_name member_module docstring
        sourcelines bases memberSourceFile parentSourceFile parent_name = .ok (some k)) ↔
      (pyStartsWith member_module parent_name = true ∧
       memberSourceFile = parentSourceFile ∧
       ∃ r, get_line_number sourcelines = .ok r))
  ∧ (∀ k, _handle_class_on_module check member_name member_module docstring
        sourcelines bases memberSourceFile parentSourceFile parent_name = .ok (some k) →
      k.path = member_module ++ "." ++ member_name ∧
        k.name = member_name ∧ k.module = member_module) := by
  unfold _handle_class_on_module
  by_cases h1 : pyStartsWith member_module parent_name = true
  · by_cases h2 : memberSourceFile = parentSourceFile
    · simp only [h1, h2, bne_self_eq_false, Bool.not_true, Bool.false_eq_true, if_false]
      cases hsl : get_line_number sourcelines with
      | ok r =>
        constructor
        · simp [hsl]
        · intro k hk
          simp only [hsl, Except.ok.injEq, Option.some.injEq] at hk
          subst hk
          exact ⟨rfl, rfl, rfl⟩
      | error e =>
        constructor
        · simp [hsl]
        · intro k hk
          simp [hsl] at hk
    · simp [h1, h2, bne_iff_ne]
  · simp [h1]

/-- C5 witness: module "a.b" walked as a member of its parent package "a"
with matching files and a successful line lookup is emitted. -/
theorem handle_class_on_module_iff_witness :
    ∃ k, _handle_class_on_module neverReexposed "C" "a.b" ""
        (.ok (["class C:\n"], 4)) [] "f.py" "f.py" "a" = .ok (some k) :=
  (handle_class_on_module_iff neverReexposed "C" "a.b" ""
      (.ok (["class C:\n"], 4)) [] "f.py" "f.py" "a").1.mpr
    ⟨by decide, rfl, 4, rfl⟩

/-- C5 counterexample: with root module "a", a class whose `__module__` is
"a.c" met as a member of the nested module "a.b" with equal source files:
the claim (root-name prefix and same file) predicts a Klass record, but
the code compares against the containing module name "a.b" and emits
nothing. -/
theorem handle_class_on_module_root_cex :
    _handle_class_on_module neverReexposed "C" "a.c" ""
        (.ok (["class C:\n"], 1)) [] "f.py" "f.py" "a.b" = .ok none
  ∧ pyStartsWith "a.c" "a" = true
  ∧ ("f.py" : String) = "f.py" := ⟨rfl, by decide, rfl⟩

/-- C7 (amended): `ok_to_add_attribute` rejects a member iff its name is
one of the twelve banned dunder names, or the parent is a class and the
member is contained in the namespace values of `object` in the Python
`in` sense — identity OR `==` equality — rather than by identity alone as
the claim states. -/
theorem ok_to_add_attribute_iff (eq : Nat → Nat → Bool) (objectDictValues : List Nat)
    (parentIsClass : Bool) (memberId : Nat) (member_name : String) :
    ok_to_add_attribute eq objectDictValues parentIsClass memberId member_name = false ↔
      ((parentIsClass = true ∧
          ∃ v ∈ objectDictValues, memberId = v ∨ eq memberId v = true)
        ∨ member_name ∈ BANNED_ATTR_NAMES) := by
  unfold ok_to_add_attribute pyContains
  by_cases h1 : parentIsClass = true
  · by_cases h2 : ∃ v ∈ objectDictValues, memberId = v ∨ eq memberId v = true
    · rw [if_pos]
      · simp [h1, h2]
      · rw [h1, Bool.true_and, List.any_eq_true]
        obtain ⟨v, hv, hor⟩ := h2
        exact ⟨v, hv, by rcases hor with h | h <;> simp [h]⟩

    · rw [if_neg]
      · by_cases h3 : member_name ∈ BANNED_ATTR_NAMES
        · simp [h3, List.contains, (List.elem_iff).mpr h3, h1, h2]
        · rw [if_neg]
          · simp [h1, h2, h3]
          · intro hc
            exact h3 (List.elem_iff.mp hc)
      · rw [h1, Bool.true_and, List.any_eq_true]
        intro ⟨v, hv, hor⟩
        refine h2 ⟨v, hv, ?_⟩
        rcases Bool.or_eq_true _ _ |>.mp hor with h | h
        · left; exact Nat.eq_of_beq_eq_true (by simpa using h)
        · right; exact h
  · have h1' : parentIsClass = false := by
      cases parentIsClass
      · rfl
      · exact absurd rfl h1
    subst h1'
    by_cases h3 : member_name ∈ BANNED_ATTR_NAMES
    · simp [h3, List.contains, (List.elem_iff).mpr h3]
    · rw [if_neg (by simp), if_neg (fun hc => h3 (List.elem_iff.mp hc))]
      simp [h3]

/-- C7 witness: a banned dunder name on a class member is rejected. -/
theorem ok_to_add_attribute_iff_witness :
    ok_to_add_attribute pyEqByValue [] true 7 "__doc__" = false :=
  (ok_to_add_attribute_iff pyEqByValue [] true 7 "__doc__").mpr (by decide)

/-- C7 counterexample: the member with id 1 compares `==`-equal to the
`object` namespace entry with id 2 without being identical to it (for
example two equal strings); the code rejects it through the Python `in`
containment, although its name is not banned and it is identical to no
namespace entry — so the decision is not made by identity comparison
alone. -/
theorem ok_to_add_attribute_identity_cex :
    ok_to_add_attribute pyEqByValue [2] true 1 "x" = false
  ∧ ("x" ∉ BANNED_ATTR_NAMES) ∧ ((1 : Nat) ∉ ([2] : List Nat)) := by decide

/-- Helper: characterisation of a successful `get_line_number`. -/
theorem get_line_number_ok (sourcelines : Except PyErr (List String × Nat)) (r : Int) :
    get_line_number sourcelines = .ok r →
      (∃ ls n, sourcelines = .ok (ls, n) ∧ r = (n : Int)) ∨
        (sourcelines = .error .typeError ∧ r = -1) := by
  intro h
  cases sourcelines with
  | ok p =>
    obtain ⟨ls, n⟩ := p
    simp only [get_line_number, Except.ok.injEq] at h
    exact Or.inl ⟨ls, n, rfl, h.symm⟩
  | error e =>
    cases e with
    | typeError =>
      simp only [get_line_number, Except.ok.injEq] at h
      exact Or.inr ⟨rfl, h.symm⟩
    | improperlyConfigured msg => simp [get_line_number] at h
    | osError => simp [get_line_number] at h

/-- C10: the no-source `TypeError` from the source lookup is turned into
the sentinel line number -1 instead of an exception, and every emitted
KlassAttribute and Klass record carries either the genuine source start
line of its member or -1. -/
theorem line_number_sentinel :
    (get_line_number (.error .typeError) = .ok (-1))
  ∧ (∀ (sourcelines : Except PyErr (List String × Nat)) (r : Int),
      get_line_number sourcelines = .ok r →
        (∃ ls n, sourcelines = .ok (ls, n) ∧ r = (n : Int)) ∨
          (sourcelines = .error .typeError ∧ r = -1))
  ∧ (∀ (eq : Nat → Nat → Bool) (objectDictValues : List Nat) (lazyId : Nat)
        (member : ClassMember) (member_name parentPath : String) (rec : KlassAttribute),
      _handle_class_attribute eq objectDictValues lazyId member member_name parentPath =
          .ok (some rec) →
        (∃ ls n, member.sourcelines = .ok (ls, n) ∧ rec.line_number = (n : Int)) ∨
          (member.sourcelines = .error .typeError ∧ rec.line_number = -1))
  ∧ (∀ (check : List String → Bool) (member_name member_module docstring : String)
        (sourcelines : Except PyErr (List String × Nat)) (bases : List String)
        (memberSourceFile parentSourceFile parent_name : String) (k : Klass),
      _handle_class_on_module check member_name member_module docstring sourcelines bases
          memberSourceFile parentSourceFile parent_name = .ok (some k) →
        (∃ ls n, sourcelines = .ok (ls, n) ∧ k.line_number = (n : Int)) ∨
          (sourcelines = .error .typeError ∧ k.line_number = -1)) := by
  refine ⟨rfl, get_line_number_ok, ?_, ?_⟩
  · intro eq objectDictValues lazyId member member_name parentPath rec h
    cases member with
    | promise p =>
      right
      refine ⟨rfl, ?_⟩
      simp only [_handle_class_attribute] at h
      cases hinit : LazyAttribute.init p with
      | error e => simp [hinit] at h
      | ok la =>
        simp only [hinit] at h
        by_cases hok : ok_to_add_attribute eq objectDictValues true lazyId member_name = true
        · rw [if_pos hok] at h
          cases hrepr : la.repr with
          | error e => simp [hrepr] at h
          | ok value =>
            simp only [hrepr] at h
            simp only [get_line_number, Except.ok.injEq, Option.some.injEq] at h
            rw [← h]
        · rw [if_neg hok] at h
          cases h
    | plain id v sl =>
      simp only [_handle_class_attribute] at h
      by_cases hok : ok_to_add_attribute eq objectDictValues true id member_name = true
      · rw [if_pos hok] at h
        cases hsl : get_line_number sl with
        | error e => simp [hsl] at h
        | ok r =>
          simp only [hsl, Except.ok.injEq, Option.some.injEq] at h
          have := get_line_number_ok sl r hsl
          rw [← h]
          exact this
      · rw [if_neg hok] at h
        cases h
  · intro check member_name member_module docstring sourcelines bases
      memberSourceFile parentSourceFile parent_name k h
    unfold _handle_class_on_module at h
    by_cases h1 : pyStartsWith member_module parent_name = true
    · by_cases h2 : memberSourceFile = parentSourceFile
      · rw [if_neg (by simp [h1]), if_neg (by simp [h2, bne_iff_ne])] at h
        cases hsl : get_line_number sourcelines with
        | error e => simp [hsl] at h
        | ok r =>
          simp only [hsl, Except.ok.injEq, Option.some.injEq] at h
          have := get_line_number_ok sourcelines r hsl
          rw [← h]
          exact this
      · rw [if_neg (by simp [h1]), if_pos (by simp [h2, bne_iff_ne])] at h
        cases h
    · rw [if_pos (by simpa using h1)] at h
      cases h

/-- C10 witness: a `TypeError` source lookup yields the sentinel. -/
theorem line_number_sentinel_witness :
    (∃ ls n, (Except.error PyErr.typeError : Except PyErr (List String × Nat)) =
        .ok (ls, n) ∧ (-1 : Int) = (n : Int)) ∨
      ((Except.error PyErr.typeError : Except PyErr (List String × Nat)) =
        .error .typeError ∧ (-1 : Int) = -1) :=
  line_number_sentinel.2.1 (.error .typeError) (-1) rfl

/-- Helper: the lazy-function table misses a name iff the name is outside
the known set. -/
theorem lazyFunctions_lookup_none (s : String) :
    lazyFunctions.lookup s = none ↔ s ∉ ["gettext", "reverse", "ugettext"] := by
  by_cases h1 : s = "gettext"
  · subst h1; simp [lazyFunctions, List.lookup]
  by_cases h2 : s = "reverse"
  · subst h2; simp [lazyFunctions, List.lookup]
  by_cases h3 : s = "ugettext"
  · subst h3; simp [lazyFunctions, List.lookup]
  simp [lazyFunctions, List.lookup, beq_eq_false_iff_ne.mpr h1,
    beq_eq_false_iff_ne.mpr h2, beq_eq_false_iff_ne.mpr h3, h1, h2, h3]

/-- Helper: a successful table lookup returns a pair of the table. -/
theorem lazyFunctions_lookup_mem (s l : String)
    (h : lazyFunctions.lookup s = some l) : (s, l) ∈ lazyFunctions := by
  by_cases h1 : s = "gettext"
  · subst h1; simp_all [lazyFunctions, List.lookup]
  by_cases h2 : s = "reverse"
  · subst h2; simp_all [lazyFunctions, List.lookup]
  by_cases h3 : s = "ugettext"
  · subst h3; simp_all [lazyFunctions, List.lookup]
  rw [(lazyFunctions_lookup_none s).mpr (by simp [h1, h2, h3])] at h
  cases h

/-- Helper: a promise wrapping an unknown function name makes the whole
attribute handler raise the configuration error. -/
theorem handle_promise_unknown (eq : Nat → Nat → Bool) (objectDictValues : List Nat)
    (lazyId : Nat) (p : Promise) (member_name parentPath : String)
    (h : p.funcName ∉ ["gettext", "reverse", "ugettext"]) :
    _handle_class_attribute eq objectDictValues lazyId (.promise p) member_name parentPath =
      .error (.improperlyConfigured
        ("\x27" ++ p.funcName ++ "\x27 not in known lazily called functions")) := by
  have hl := (lazyFunctions_lookup_none p.funcName).mpr h
  simp [_handle_class_attribute, LazyAttribute.init, hl]

/-- C8: a deferred-call value wrapping a function name outside
{gettext, reverse, ugettext} raises the configuration error (exactly the
unknown names do), the error propagates out of the per-member handler
uncaught, and a member walk that completed without error contained no
promise with an unknown function name. -/
theorem lazy_unknown_fatal :
    (∀ p : Promise,
      (∃ msg, LazyAttribute.init p = .error (.improperlyConfigured msg)) ↔
        p.funcName ∉ ["gettext", "reverse", "ugettext"])
  ∧ (∀ (eq : Nat → Nat → Bool) (objectDictValues : List Nat) (lazyId : Nat)
        (p : Promise) (member_name parentPath : String),
      p.funcName ∉ ["gettext", "reverse", "ugettext"] →
        _handle_class_attribute eq objectDictValues lazyId (.promise p)
            member_name parentPath =
          .error (.improperlyConfigured
            ("\x27" ++ p.funcName ++ "\x27 not in known lazily called functions")))
  ∧ (∀ (eq : Nat → Nat → Bool) (objectDictValues : List Nat) (lazyId : Nat)
        (parentPath : String) (members : List (String × ClassMember))
        (out : List KlassAttribute),
      process_class_attributes eq objectDictValues lazyId parentPath members = .ok out →
        ∀ (member_name : String) (p : Promise),
          (member_name, ClassMember.promise p) ∈ members →
            p.funcName ∈ ["gettext", "reverse", "ugettext"]) := by
  refine ⟨?_, ?_, ?_⟩
  · intro p
    cases hl : lazyFunctions.lookup p.funcName with
    | some l =>
      constructor
      · rintro ⟨msg, h⟩
        unfold LazyAttribute.init at h
        rw [hl] at h
        cases h
      · intro hmem
        exact absurd ((lazyFunctions_lookup_none p.funcName).mpr hmem) (by simp [hl])
    | none =>
      constructor
      · intro _
        exact (lazyFunctions_lookup_none _).mp hl
      · intro _
        refine ⟨"\x27" ++ p.funcName ++ "\x27 not in known lazily called functions", ?_⟩
        unfold LazyAttribute.init
        rw [hl]
  · intro eq objectDictValues lazyId p member_name parentPath hmem
    exact handle_promise_unknown eq objectDictValues lazyId p member_name parentPath hmem
  · intro eq objectDictValues lazyId parentPath members
    induction members with
    | nil =>
      intro out h member_name p hmem
      cases hmem
    | cons head rest ih =>
      obtain ⟨hn, hm⟩ := head
      intro out h member_name p hmem
      unfold process_class_attributes at h
      cases hh : _handle_class_attribute eq objectDictValues lazyId hm hn parentPath with
      | error e => rw [hh] at h; cases h
      | ok record =>
        rw [hh] at h
        cases hr : process_class_attributes eq objectDictValues lazyId parentPath rest with
        | error e => rw [hr] at h; cases h
        | ok records =>
          rcases List.mem_cons.mp hmem with heq | hmem'
          · by_contra hnot
            have hn' : hn = member_name ∧ hm = ClassMember.promise p := by
              have h1 := congrArg Prod.fst heq
              have h2 := congrArg Prod.snd heq
              exact ⟨h1.symm, h2.symm⟩
            rw [hn'.1, hn'.2] at hh
            rw [handle_promise_unknown eq objectDictValues lazyId p member_name
              parentPath hnot] at hh
            cases hh
          · exact ih records hr member_name p hmem'

/-- C8 witness: a promise wrapping `format` aborts the handler with the
configuration error. -/
theorem lazy_unknown_fatal_witness :
    _handle_class_attribute pyEqByValue [] 0 (.promise ⟨"format", [], []⟩) "x" "a.B" =
      .error (.improperlyConfigured "\x27format\x27 not in known lazily called functions") :=
  lazy_unknown_fatal.2.1 pyEqByValue [] 0 ⟨"format", [], []⟩ "x" "a.B" (by decide)

/-- C6 (amended): a deferred-call proxy with a known wrapped function
name is reified as the mapped lazy function name applied to the original
arguments: string positional arguments are quoted, and each keyword pair
is rendered as `\x27kwarg\x27: \x27value\x27` — quoted-when-string key,
colon-space separator — NOT as `kwarg=\x27value\x27`; a text-translation
call renders as `gettext_lazy(...)` and a URL-reversal call as
`reverse_lazy(...)`. -/
theorem lazy_repr_format :
    (∀ (p : Promise) (la : LazyAttribute), LazyAttribute.init p = .ok la →
       (p.funcName, la.lazy_func) ∈ lazyFunctions ∧
         la.args = p.args ∧ la.kwargs = p.kwargs)
  ∧ (∀ la : LazyAttribute, la.args.all PyVal.isStr = true →
       la.repr = .ok (la.lazy_func ++ "(" ++
         String.intercalate ", "
           (la.args.map PyVal.quoted ++
            la.kwargs.map fun kv => kv.1.quoted ++ ": " ++ kv.2.quoted) ++ ")"))
  ∧ ((LazyAttribute.init ⟨"gettext", [.str "hello"], []⟩).bind LazyAttribute.repr =
       .ok "gettext_lazy(\x27hello\x27)")
  ∧ ((LazyAttribute.init ⟨"reverse", [.str "home"], [(.str "to", .str "x")]⟩).bind
        LazyAttribute.repr =
       .ok "reverse_lazy(\x27home\x27, \x27to\x27: \x27x\x27)") := by
  refine ⟨?_, ?_, rfl, rfl⟩
  · intro p la h
    cases hl : lazyFunctions.lookup p.funcName with
    | none =>
      unfold LazyAttribute.init at h
      rw [hl] at h
      cases h
    | some l =>
      unfold LazyAttribute.init at h
      rw [hl] at h
      cases h
      exact ⟨lazyFunctions_lookup_mem _ _ hl, rfl, rfl⟩
  · intro la hall
    have hany : (la.args.any fun a => !a.isStr) = false := by
      rw [List.any_eq_false]
      intro x hx
      simp [List.all_eq_true.mp hall x hx]
    unfold LazyAttribute.repr
    rw [hany]
    simp [LazyAttribute.argPieces]

/-- C6 witness: the rendering formula at a concrete reverse call with one
string positional argument and one keyword pair. -/
theorem lazy_repr_format_witness :
    LazyAttribute.repr ⟨"reverse_lazy", [.str "home"], [(.str "to", .str "x")]⟩ =
      .ok ("reverse_lazy" ++ "(" ++
        String.intercalate ", "
          (([PyVal.str "home"].map PyVal.quoted) ++
           ([((PyVal.str "to" : PyVal), (PyVal.str "x" : PyVal))].map
              fun kv => kv.1.quoted ++ ": " ++ kv.2.quoted)) ++ ")") :=
  lazy_repr_format.2.1 ⟨"reverse_lazy", [.str "home"], [(.str "to", .str "x")]⟩ rfl

/-- C6 counterexample: a deferred reverse call carrying the keyword pair
`kwarg="value"` is rendered `reverse_lazy(\x27kwarg\x27: \x27value\x27)` —
quoted key and colon — which differs from the claimed textual form
`reverse_lazy(kwarg=\x27value\x27)`. -/
theorem lazy_repr_colon_cex :
    (LazyAttribute.init ⟨"reverse", [], [(.str "kwarg", .str "value")]⟩).bind
        LazyAttribute.repr =
      .ok "reverse_lazy(\x27kwarg\x27: \x27value\x27)"
  ∧ ("reverse_lazy(\x27kwarg\x27: \x27value\x27)" : String) ≠
      "reverse_lazy(kwarg=\x27value\x27)" :=
  ⟨rfl, by decide⟩

/-- Helper: the Python slice `s[1:-1]` of a parenthesised string is the
inner string. -/
theorem sliceOneToNegOne_paren (s : String) :
    sliceOneToNegOne ("(" ++ s ++ ")") = s := by
  cases s with
  | mk cs =>
    have h : ("(" ++ String.mk cs ++ ")").toList = '(' :: (cs ++ [')']) := rfl
    show String.mk ((("(" ++ String.mk cs ++ ")").toList.drop 1).dropLast) = String.mk cs
    rw [h]
    simp [List.dropLast_concat]

/-- C3 (amended): the `kwargs` field of every emitted Method record is the
formatted argument-specification STRING with only its first and last
characters — the surrounding parentheses — removed (`arguments[1:-1]`),
i.e. the comma-joined list of all formatted argument pieces: the leading
receiver and the trailing catch-alls are NOT removed. -/
theorem method_kwargs_strips_parens
    (member_name docstring memberSourceFile parentSourceFile : String)
    (parentIsClass : Bool) (lines : List String) (start_line : Nat)
    (spec : FullArgSpec) (parent_start_line parentLineCount : Nat)
    (parentPath : String) (m : Method) :
    _handle_function_or_method member_name docstring memberSourceFile parentSourceFile
        parentIsClass lines start_line spec parent_start_line parentLineCount
        parentPath = some m →
    m.kwargs = String.intercalate ", " (argspec_pieces spec) := by
  unfold _handle_function_or_method
  split
  · intro h; cases h
  · intro h
    simp only [get_code, Option.some.injEq] at h
    rw [← h]
    show sliceOneToNegOne (formatargspec spec) = String.intercalate ", " (argspec_pieces spec)
    exact sliceOneToNegOne_paren _

/-- C3 witness: for the argument spec (self, request, **kwargs), the
emitted kwargs string keeps every argument. -/
theorem method_kwargs_strips_parens_witness :
    ("self, request, **kwargs" : String) =
      String.intercalate ", " (argspec_pieces ⟨["self", "request"], none, some "kwargs"⟩) :=
  method_kwargs_strips_parens "get" "" "f.py" "f.py" true ["def get(self):\n"] 10
    ⟨["self", "request"], none, some "kwargs"⟩ 8 5 "m.C"
    ⟨"get", "", "def get(self):\n", "self, request, **kwargs", 10, "m.C"⟩ (by decide)

/-- C3 counterexample: for a method whose full argument spec is
(self, request, **kwargs), the emitted kwargs field is the string
"self, request, **kwargs" — the receiver and the catch-all are still
present — while the claim predicts the name list with the first and last
entries removed, i.e. "request". -/
theorem method_kwargs_cex :
    (_handle_function_or_method "get" "" "f.py" "f.py" true ["def get(self):\n"] 10
        ⟨["self", "request"], none, some "kwargs"⟩ 8 5 "m.C").map Method.kwargs =
      some "self, request, **kwargs"
  ∧ String.intercalate ", "
      (kwargs_per_claim ⟨["self", "request"], none, some "kwargs"⟩) = "request"
  ∧ ("self, request, **kwargs" : String) ≠ "request" := by decide

/-- C1: attribute shadowing resolution — within each (name, value) group,
a candidate survives iff its declaring class is not in the union of the
descendant sets (`get_all_children`) of the group members; in the
A-defines/B-inherits scenario only the record of A survives, and when B
independently redefines the value both records survive. -/
theorem create_attributes_shadowing :
    (∀ (edges : List (String × String)) (name value : String)
       (klasses : List (String × Int)) (kp : String) (l : Int),
      (⟨name, value, l, kp⟩ : KlassAttribute) ∈
          create_attributes edges [((name, value), klasses)] ↔
        ((kp, l) ∈ klasses ∧ ∀ entry ∈ klasses, kp ∉ get_all_children edges entry.1))
  ∧ create_attributes [("A", "B")] [(("x", "1"), [("A", 3), ("B", 7)])] =
      [⟨"x", "1", 3, "A"⟩]
  ∧ create_attributes [("A", "B")]
        [(("x", "1"), [("A", 3)]), (("x", "2"), [("B", 7)])] =
      [⟨"x", "1", 3, "A"⟩, ⟨"x", "2", 7, "B"⟩] := by
  refine ⟨?_, by decide, by decide⟩
  intro edges name value klasses kp l
  simp only [create_attributes, List.flatMap_cons, List.flatMap_nil, List.append_nil,
    List.mem_map, List.mem_filter, KlassAttribute.mk.injEq, Bool.not_eq_true',
    List.contains, List.mem_flatMap, not_exists, not_and]
  constructor
  · rintro ⟨⟨a, b⟩, ⟨hmem, hnotdesc⟩, -, -, hl, hkp⟩
    subst hl
    subst hkp
    refine ⟨hmem, fun entry he hkin => ?_⟩
    have hmem2 : a ∈ klasses.flatMap fun k_and_l => get_all_children edges k_and_l.1 :=
      List.mem_flatMap.mpr ⟨entry, he, hkin⟩
    have htrue := List.elem_iff.mpr hmem2
    rw [htrue] at hnotdesc
    cases hnotdesc
  · rintro ⟨hmem, hall⟩
    have hnot : ¬ (kp ∈ klasses.flatMap fun k_and_l => get_all_children edges k_and_l.1) := by
      intro hc
      obtain ⟨entry, he, hkin⟩ := List.mem_flatMap.mp hc
      exact hall entry he hkin
    refine ⟨(kp, l), ⟨hmem, ?_⟩, trivial, trivial, rfl, rfl⟩
    cases helem : List.elem kp (klasses.flatMap fun k_and_l => get_all_children edges k_and_l.1) with
    | false => rfl
    | true => exact absurd (List.elem_iff.mp helem) hnot

/-- C1 witness: in the A-defines, B-merely-inherits group, the record of
A is among the resolved attributes. -/
theorem create_attributes_shadowing_witness :
    (⟨"x", "1", 3, "A"⟩ : KlassAttribute) ∈
      create_attributes [("A", "B")] [(("x", "1"), [("A", 3), ("B", 7)])] :=
  (create_attributes_shadowing.1 [("A", "B")] "x" "1" [("A", 3), ("B", 7)] "A" 3).mpr
    (by decide)

end CCBV
